import Mathlib

/-!
Verification development for the rtest parallel test runner.

The repository ships the Python side of the runner (`rtest.raises`, the
worker CLI entry point) together with its integration test-suite.  The
discovery / scheduling / driver core is described in the specification;
those parts are modelled here directly from the specification text
(each such definition carries a doc comment starting with
`Modelled from the spec:`).  The `rtest.raises` context manager is
embedded from its Python source `src/python/rtest/raises.py`.
-/

/- ## Shared string utilities (decimal rendering, joining, trimming) -/

/-- Decimal digit list of a natural number, fuel-structured so that it
reduces by `decide`/`rfl`.  `decDigitsAux (n+1) n` is total for `n`. -/
def decDigitsAux : Nat → Nat → List Char
  | 0, _ => []
  | fuel + 1, n =>
    if n < 10 then [Nat.digitChar n]
    else decDigitsAux fuel (n / 10) ++ [Nat.digitChar (n % 10)]

/-- Decimal string of a natural number (no sign, no padding); the
synthetic parametrize case id of case index `i` is `decStr i`. -/
def decStr (n : Nat) : String := ⟨decDigitsAux (n + 1) n⟩

/-- Numeric value of one decimal digit character. -/
def digitVal (c : Char) : Nat := c.toNat - 48

/-- Value of a digit string, most significant digit first. -/
def digitsVal (l : List Char) : Nat := l.foldl (fun a c => 10 * a + digitVal c) 0

/-- Join a list of strings with the separator `-`, as the parametrize
expander does for stacked case ids. -/
def joinDash : List String → String
  | [] => ""
  | [s] => s
  | s :: t :: l => s ++ "-" ++ joinDash (t :: l)

/-- Split a character list at commas. -/
def splitCommaChars : List Char → List (List Char)
  | [] => [[]]
  | c :: cs =>
    if c = ',' then [] :: splitCommaChars cs
    else
      match splitCommaChars cs with
      | [] => [[c]]
      | w :: ws => (c :: w) :: ws

/-- Strip leading and trailing whitespace from a character list. -/
def trimChars (l : List Char) : List Char :=
  ((l.dropWhile Char.isWhitespace).reverse.dropWhile Char.isWhitespace).reverse

/-- Modelled from the spec: the argnames spec of a parametrize decorator,
when given as one string, is split at commas with surrounding whitespace
trimmed (§4.2). -/
def splitCommaTrim (s : String) : List String :=
  (splitCommaChars s.data).map (fun w => ⟨trimChars w⟩)

/-- Lexicographic comparison of character lists. -/
def charsLe : List Char → List Char → Bool
  | [], _ => true
  | _ :: _, [] => false
  | a :: as, b :: bs => if a = b then charsLe as bs else decide (a < b)

/-- Lexicographic comparison of strings, used for the deterministic
tie-break when sorting scheduler groups. -/
def strLe (a b : String) : Bool := charsLe a.data b.data

/- ## Outcomes, aggregation and exit codes (driver / worker §4.6) -/

/-- Modelled from the spec: the four test outcome classifications of the
worker protocol (§4.5). -/
inductive Outcome where
  | passed
  | failed
  | skipped
  | error
deriving DecidableEq

/-- Modelled from the spec: the aggregated counts `{passed, failed,
skipped, error}` of §4.6 step 6. -/
structure Counts where
  passed : Nat
  failed : Nat
  skipped : Nat
  error : Nat
deriving DecidableEq

/-- Modelled from the spec: add one outcome to the running counts, as the
aggregator consumes result records. -/
def Counts.add (c : Counts) : Outcome → Counts
  | .passed => { c with passed := c.passed + 1 }
  | .failed => { c with failed := c.failed + 1 }
  | .skipped => { c with skipped := c.skipped + 1 }
  | .error => { c with error := c.error + 1 }

/-- Modelled from the spec: aggregate a stream of outcomes into counts
(§4.6 step 6); the missing aggregator lives in the Rust driver crate. -/
def aggregate (os : List Outcome) : Counts :=
  os.foldl Counts.add ⟨0, 0, 0, 0⟩

/-- Modelled from the spec: the run exit code is `0` iff `failed == 0 &&
error == 0`, else `1` (§4.6 step 6); CLI misuse uses `2` separately. -/
def exitCodeOf (c : Counts) : Nat :=
  if c.failed = 0 ∧ c.error = 0 then 0 else 1

/- ## Parametrize model and expansion (§3, §4.3) -/

/-- Modelled from the spec: one parameter case; values are opaque
source-slice tokens, never evaluated by the scanner (§3). -/
structure ParamCase where
  values : List String
deriving DecidableEq

/-- Modelled from the spec: the `Parametrize` marker payload — argnames,
ordered cases, and the optional explicit `ids` list (§3, §4.2). -/
structure Parametrize where
  argnames : List String
  cases : List ParamCase
  ids : Option (List String)
deriving DecidableEq

/-- Modelled from the spec: the case id of case index `i` of one
decorator — the explicit id when `ids` is supplied, else the decimal
string of `i` (§4.3). -/
def caseIdOf (p : Parametrize) (i : Nat) : String :=
  match p.ids with
  | some l => l.getD i (decStr i)
  | none => decStr i

/-- The case ids of a decorator, in case order. -/
def caseIdsOf (p : Parametrize) : List String :=
  (List.range p.cases.length).map (caseIdOf p)

/-- Modelled from the spec: enumeration of the cartesian case universe;
for counts `c :: cs` the first component varies slowest (§4.3). -/
def indexTuples : List Nat → List (List Nat)
  | [] => [[]]
  | c :: cs => (List.range c).flatMap (fun i => (indexTuples cs).map (fun t => i :: t))

/-- Mixed-radix flat position of an index tuple in `indexTuples`:
the outermost index is the most significant (varies slowest). -/
def flatIndex : List Nat → List Nat → Nat
  | _ :: cs, i :: is => i * (cs.foldr (· * ·) 1) + flatIndex cs is
  | _, _ => 0

/- ## Markers, import resolver and AST scanner (§4.1, §4.2) -/

/-- Modelled from the spec: the closed marker sum type (§3). -/
inductive Marker where
  | parametrize (p : Parametrize)
  | skip (reason : Option String)
  | xdistGroup (name : String)
  | unknown (attributePath : List String)
deriving DecidableEq

/-- Modelled from the spec: the four import statement shapes the
resolver records (§4.1). -/
inductive ImportStmt where
  | direct (m : String)
  | directAs (m a : String)
  | fromImport (m n : String)
  | fromImportAs (m n a : String)
deriving DecidableEq

/-- Modelled from the spec: a local binding resolves to a module or to a
module member symbol (§4.1). -/
inductive Binding where
  | module (m : String)
  | symbol (m n : String)
deriving DecidableEq

/-- Modelled from the spec: the local name bound by one import statement
together with its canonical meaning (§4.1). -/
def ImportStmt.binding : ImportStmt → String × Binding
  | .direct m => (m, .module m)
  | .directAs m a => (a, .module m)
  | .fromImport m n => (n, .symbol m n)
  | .fromImportAs m n a => (a, .symbol m n)

/-- Modelled from the spec: resolve a local name through the recorded
bindings; a later import of the same name shadows an earlier one. -/
def resolveName (imports : List ImportStmt) (name : String) : Option Binding :=
  (imports.reverse.map ImportStmt.binding).lookup name

/-- Modelled from the spec: canonicalize a decorator attribute chain
(leftmost first).  A binding to `module:pytest`/`module:rtest` makes the
remaining chain canonical; `symbol:pytest.mark` prepends `mark`;
anything else is unresolved (§4.1). -/
def canonicalize (imports : List ImportStmt) (chain : List String) : Option (List String) :=
  match chain with
  | [] => none
  | leftmost :: rest =>
    match resolveName imports leftmost with
    | some (.module m) =>
      if m = "pytest" ∨ m = "rtest" then some rest else none
    | some (.symbol m n) =>
      if (m = "pytest" ∨ m = "rtest") ∧ n = "mark" then some ("mark" :: rest) else none
    | none => none

/-- Modelled from the spec: one case element of the cases iterable —
either a tuple-literal of value tokens or a single expression token
(§4.2). -/
inductive CaseExpr where
  | tup (values : List String)
  | single (value : String)
deriving DecidableEq

/-- Modelled from the spec: the decorator argument expressions the
scanner distinguishes; everything else is an opaque source token
(§4.2). -/
inductive PyExpr where
  | strLit (s : String)
  | strTuple (elems : List String)
  | caseList (elems : List CaseExpr)
  | strList (elems : List String)
  | token (src : String)
deriving DecidableEq

/-- Modelled from the spec: a decorator call site — attribute chain,
positional arguments and keyword arguments (§4.2). -/
structure DecoratorCall where
  chain : List String
  positional : List PyExpr
  keyword : List (String × PyExpr)
deriving DecidableEq

/-- Modelled from the spec: parse the argnames spec — a comma-separated
string or a tuple of string literals, split identically (§4.2). -/
def parseArgnames : PyExpr → Option (List String)
  | .strLit s => some (splitCommaTrim s)
  | .strTuple es => some es
  | _ => none

/-- Modelled from the spec: parse one case of the cases iterable; a
tuple must match the argname count, a single expression needs exactly
one argname (§4.2, §7 collection errors). -/
def parseCase (argc : Nat) : CaseExpr → Option ParamCase
  | .tup vs => if vs.length = argc then some ⟨vs⟩ else none
  | .single v => if argc = 1 then some ⟨[v]⟩ else none

/-- Modelled from the spec: parse the cases iterable (§4.2). -/
def parseCases (argc : Nat) : PyExpr → Option (List ParamCase)
  | .caseList es => es.mapM (parseCase argc)
  | _ => none

/-- Modelled from the spec: parse the optional `ids` keyword — a list of
strings whose length must match the case count (§4.2, §9 open
question resolved as a collection error). -/
def parseIds (n : Nat) : Option PyExpr → Option (Option (List String))
  | none => some none
  | some (.strList l) => if l.length = n then some (some l) else none
  | some _ => none

/-- Modelled from the spec: parse the arguments of a
`mark.parametrize` decorator; `none` is a collection error (§4.2). -/
def parseParametrize (pos : List PyExpr) (kw : List (String × PyExpr)) : Option Parametrize :=
  match pos with
  | [namesE, casesE] =>
    (parseArgnames namesE).bind fun names =>
      (parseCases names.length casesE).bind fun cs =>
        (parseIds cs.length (kw.lookup "ids")).map fun ids =>
          { argnames := names, cases := cs, ids := ids }
  | _ => none

/-- Modelled from the spec: parse the arguments of a `mark.skip`
decorator — bare or with `reason=` (§4.2). -/
def parseSkipArgs (pos : List PyExpr) (kw : List (String × PyExpr)) : Option (Option String) :=
  match pos with
  | [] =>
    match kw.lookup "reason" with
    | none => some none
    | some (.strLit s) => some (some s)
    | some _ => none
  | _ => none

/-- Modelled from the spec: parse the arguments of a `mark.xdist_group`
decorator — a positional string or keyword `name=` (§4.2). -/
def parseGroupArgs (pos : List PyExpr) (kw : List (String × PyExpr)) : Option String :=
  match pos with
  | [.strLit s] => some s
  | [] =>
    match kw.lookup "name" with
    | some (.strLit s) => some s
    | _ => none
  | _ => none

/-- Modelled from the spec: interpret one decorator through the import
resolver; `none` is a collection error, unrecognized decorators are
preserved verbatim as `Marker.unknown` (§4.1, §4.2). -/
def scanDecorator (imports : List ImportStmt) (d : DecoratorCall) : Option Marker :=
  match canonicalize imports d.chain with
  | some ["mark", "parametrize"] => (parseParametrize d.positional d.keyword).map .parametrize
  | some ["mark", "skip"] => (parseSkipArgs d.positional d.keyword).map .skip
  | some ["mark", "xdist_group"] => (parseGroupArgs d.positional d.keyword).map .xdistGroup
  | some _ => some (.unknown d.chain)
  | none => some (.unknown d.chain)

/-- Keep only recognized markers (the `unknown` arm is dropped); used to
state that recognition is invariant under import style. -/
def recognizedOf : Marker → Option Marker
  | .unknown _ => none
  | m => some m

/-- The three canonical marker paths the scanner interprets. -/
def recognizedMarkPath (p : List String) : Bool :=
  p = ["mark", "parametrize"] ∨ p = ["mark", "skip"] ∨ p = ["mark", "xdist_group"]

/- ## Test items and expansion (§3, §4.2, §4.3) -/

/-- Modelled from the spec: a pre-expansion test item; markers are kept
outermost-first in source order (§3). -/
structure TestItem where
  nodeidStem : String
  sourceFile : String
  className : Option String
  functionName : String
  markers : List Marker
deriving DecidableEq

/-- Modelled from the spec: a post-expansion executable item (§3). -/
structure ExecutableItem where
  nodeid : String
  sourceFile : String
  className : Option String
  functionName : String
  skipReason : Option String
  xdistGroup : Option String
  paramBindings : List (String × String)
deriving DecidableEq

/-- Modelled from the spec: the first `Skip` marker (outermost wins)
yields the inherited skip reason; a bare skip gets an empty reason
(§3 invariants). -/
def firstSkipReason : List Marker → Option String
  | [] => none
  | .skip r :: _ => some (r.getD "")
  | _ :: ms => firstSkipReason ms

/-- Modelled from the spec: the first `XdistGroup` marker (outermost
wins) yields the affinity label (§3). -/
def firstXdistGroup : List Marker → Option String
  | [] => none
  | .xdistGroup g :: _ => some g
  | _ :: ms => firstXdistGroup ms

/-- Modelled from the spec: the parametrize stack of an item, outermost
decorator first, read off the source-ordered marker list (§4.3). -/
def paramStackOf (ms : List Marker) : List Parametrize :=
  ms.filterMap fun m =>
    match m with
    | .parametrize p => some p
    | _ => none

/-- Modelled from the spec: the combined case id of one index tuple —
the individual ids joined by `-`, outermost to innermost (§4.3). -/
def combinedId (ps : List Parametrize) (t : List Nat) : String :=
  joinDash (List.zipWith caseIdOf ps t)

/-- Modelled from the spec: the NodeId of an expanded item —
`stem + "[" + combined_case_id + "]"`, and no bracketed suffix for
non-parametrized items (§4.3). -/
def nodeIdOf (stem : String) (ps : List Parametrize) (t : List Nat) : String :=
  match t with
  | [] => stem
  | _ :: _ => stem ++ "[" ++ combinedId ps t ++ "]"

/-- Modelled from the spec: the parameter bindings of one case tuple,
argnames zipped with the selected case's value tokens, decorator by
decorator (§3). -/
def bindingsOf (ps : List Parametrize) (t : List Nat) : List (String × String) :=
  (List.zipWith (fun (p : Parametrize) (i : Nat) =>
    p.argnames.zip ((p.cases.getD i ⟨[]⟩).values)) ps t).flatten

/-- Modelled from the spec: the parametrize expander — one executable
item per element of the cartesian case universe, with the outermost
decorator varying slowest (§4.3). -/
def expandItem (it : TestItem) : List ExecutableItem :=
  let ps := paramStackOf it.markers
  (indexTuples (ps.map fun p => p.cases.length)).map fun t =>
    { nodeid := nodeIdOf it.nodeidStem ps t
      sourceFile := it.sourceFile
      className := it.className
      functionName := it.functionName
      skipReason := firstSkipReason it.markers
      xdistGroup := firstXdistGroup it.markers
      paramBindings := bindingsOf ps t }

/-- Modelled from the spec: scanning a test class prepends the class
markers (outermost) to every `test_`-prefixed method's markers (§4.2);
the method items keep source order. -/
def itemsOfClass (file clsName : String) (classMarkers : List Marker)
    (methods : List (String × List Marker)) : List TestItem :=
  (methods.filter fun m => m.1.startsWith "test_").map fun m =>
    { nodeidStem := file ++ "::" ++ clsName ++ "::" ++ m.1
      sourceFile := file
      className := some clsName
      functionName := m.1
      markers := classMarkers ++ m.2 }

/- ## Worker execution (§4.5) -/

/-- Modelled from the spec: the black-box behaviour of one test body as
observed by the worker (§4.5 outcome classification). -/
inductive BodyOutcome where
  | passes
  | assertionFails
  | skipSignal
  | raisesOther (excType : String)
deriving DecidableEq

/-- Modelled from the spec: one JSONL result record, restricted to the
fields the claims mention (§6). -/
structure ResultRecord where
  nodeid : String
  outcome : Outcome
  errorReason : Option String
  errorType : Option String
deriving DecidableEq

/-- Modelled from the spec: the worker's per-item dispatch — the static
skip path never consults the body, the execute path classifies the
body's behaviour (§4.5). -/
def runItem (runBody : ExecutableItem → BodyOutcome) (it : ExecutableItem) : ResultRecord :=
  match it.skipReason with
  | some r => { nodeid := it.nodeid, outcome := .skipped, errorReason := some r, errorType := none }
  | none =>
    match runBody it with
    | .passes => { nodeid := it.nodeid, outcome := .passed, errorReason := none, errorType := none }
    | .assertionFails =>
      { nodeid := it.nodeid, outcome := .failed, errorReason := none, errorType := some "AssertionError" }
    | .skipSignal => { nodeid := it.nodeid, outcome := .skipped, errorReason := none, errorType := none }
    | .raisesOther ty =>
      { nodeid := it.nodeid, outcome := .error, errorReason := none, errorType := some ty }

/-- Modelled from the spec: one worker run over its batch — the ordered
result records plus the worker process exit code (§4.5, §6). -/
def workerRun (runBody : ExecutableItem → BodyOutcome) (items : List ExecutableItem) :
    List ResultRecord × Nat :=
  let rs := items.map (runItem runBody)
  (rs, exitCodeOf (aggregate (rs.map (·.outcome))))

/- ## Group scheduler (§4.4) -/

/-- Modelled from the spec: the two distribution modes (§6). -/
inductive DistMode where
  | load
  | loadgroup
deriving DecidableEq

/-- Insert into a `le`-sorted list (stable). -/
def insertLe (le : α → α → Bool) (a : α) : List α → List α
  | [] => [a]
  | b :: l => if le a b then a :: b :: l else b :: insertLe le a l

/-- Insertion sort by a boolean comparison; deterministic. -/
def sortLe (le : α → α → Bool) : List α → List α
  | [] => []
  | a :: l => insertLe le a (sortLe le l)

/-- Modelled from the spec: group ordering — descending size, ties by
group name lexicographically (§4.4 step 2). -/
def groupLe (a b : String × List ExecutableItem) : Bool :=
  if a.2.length = b.2.length then strLe a.1 b.1 else decide (b.2.length < a.2.length)

/-- Modelled from the spec: partition the items into affinity groups; in
`loadgroup` mode items sharing an `xdist_group` form one group and each
ungrouped item is a singleton (keyed by its nodeid); in `load` mode
every item is its own singleton group (§4.4 step 1, §4.4 end). -/
def groupsOf (mode : DistMode) (items : List ExecutableItem) : List (String × List ExecutableItem) :=
  match mode with
  | .load => items.map fun it => (it.nodeid, [it])
  | .loadgroup =>
    ((items.filterMap (·.xdistGroup)).dedup.map fun g =>
      (g, items.filter fun it => it.xdistGroup = some g)) ++
    ((items.filter fun it => it.xdistGroup = none).map fun it => (it.nodeid, [it]))

/-- Modelled from the spec: the min-heap pop — the first worker index of
least current load, i.e. the least `(load, index)` pair (§4.4 step 3). -/
def minLoadIndex (loads : List Nat) : Nat :=
  (List.range loads.length).foldl
    (fun best i => if loads.getD i 0 < loads.getD best 0 then i else best) 0

/-- Modelled from the spec: append one group's items to the least-loaded
worker's list (§4.4 steps 3 and 4). -/
def assignStep (buckets : List (List ExecutableItem)) (g : String × List ExecutableItem) :
    List (List ExecutableItem) :=
  let w := minLoadIndex (buckets.map (·.length))
  buckets.set w (buckets.getD w [] ++ g.2)

/-- Modelled from the spec: the LPT assignment loop over the sorted
groups (§4.4 step 3). -/
def assignGroups (w : Nat) (groups : List (String × List ExecutableItem)) :
    List (List ExecutableItem) :=
  groups.foldl assignStep (List.replicate w [])

/-- Modelled from the spec: the full Group Scheduler — partition,
deterministic sort, LPT assignment (§4.4). -/
def schedule (mode : DistMode) (w : Nat) (items : List ExecutableItem) :
    List (List ExecutableItem) :=
  assignGroups w (sortLe groupLe (groupsOf mode items))

/- ## Driver (§4.6, §6, §7) -/

/-- Modelled from the spec: recognition of the `--dist` argument; only
`load` and `loadgroup` exist (§6). -/
def parseDistMode (s : String) : Option DistMode :=
  if s = "load" then some .load
  else if s = "loadgroup" then some .loadgroup
  else none

/-- Modelled from the spec: the observable driver outcome — exit code,
error-stream text, and the result records of the tests it ran (§4.6,
§7). -/
structure DriverOutput where
  exitCode : Nat
  errStream : String
  results : List ResultRecord
deriving DecidableEq

/-- Modelled from the spec: schedule the items, run every bucket, and
aggregate all workers' results into the driver exit code (§4.6). -/
def driverRun (mode : DistMode) (w : Nat) (runBody : ExecutableItem → BodyOutcome)
    (items : List ExecutableItem) : List ResultRecord × Nat :=
  let rs := (schedule mode w items).flatMap fun b => (workerRun runBody b).1
  (rs, exitCodeOf (aggregate (rs.map (·.outcome))))

/-- Modelled from the spec: the driver front end — an unrecognized
`--dist` mode is CLI misuse: exit code `2`, a human-readable message on
the error stream, and no tests run (§6, §7 driver errors). -/
def driverMain (distArg : Option String) (w : Nat) (runBody : ExecutableItem → BodyOutcome)
    (items : List ExecutableItem) : DriverOutput :=
  match distArg with
  | none =>
    let r := driverRun .load w runBody items
    { exitCode := r.2, errStream := "", results := r.1 }
  | some s =>
    match parseDistMode s with
    | some mode =>
      let r := driverRun mode w runBody items
      { exitCode := r.2, errStream := "", results := r.1 }
    | none =>
      { exitCode := 2
        errStream := "error: unrecognized --dist mode: " ++ s ++ " (expected load or loadgroup)"
        results := [] }

/- ## The `rtest.raises` context manager

Embedded from `src/python/rtest/raises.py`.  Exception types are kept
abstract: `ε` stands for the Python class objects, `issub` for the
builtin `issubclass` test, `excName` for `__name__`, and `search` for
`re.search` restricted to its boolean outcome; the embedding is
parametric in these externals exactly where the Python code calls out
to the interpreter or to `re`. -/

/-- The `expected_exception` argument: a single exception type or a
tuple of exception types. -/
inductive Expected (ε : Type) where
  | single (t : ε)
  | tuple (ts : List ε)
deriving DecidableEq

/-- A raised Python exception as `__exit__` observes it: its type and
its `str(...)` rendering. -/
structure Exc (ε : Type) where
  ty : ε
  msg : String
deriving DecidableEq

/-- The `RaisesContext` object state: `expected_exception`,
`match_expr` (a pattern string or `None`) and the `value` attribute. -/
structure RaisesContext (ε : Type) where
  expectedException : Expected ε
  matchExpr : Option String
  value : Option (Exc ε)
deriving DecidableEq

/-- A raised Python error, as far as `raises.py` produces them. -/
inductive PyErr where
  | typeError (msg : String)
  | valueError (msg : String)
  | assertionError (msg : String)
deriving DecidableEq

/-- `RaisesContext.__init__`: stores the arguments and, when `match` is
given, validates it with `re.compile` (`recompile` returns the
`re.error` message on failure), raising
`ValueError("Invalid regex pattern provided to 'match': ...")`. -/
def RaisesContext.init (ε : Type) (recompile : String → Except String Unit)
    (expected : Expected ε) (matchArg : Option String) :
    Except PyErr (RaisesContext ε) :=
  match matchArg with
  | none => .ok { expectedException := expected, matchExpr := none, value := none }
  | some p =>
    match recompile p with
    | .ok _ => .ok { expectedException := expected, matchExpr := some p, value := none }
    | .error e =>
      .error (.valueError ("Invalid regex pattern provided to \x27match\x27: " ++ e))

/-- Python `issubclass(ty, expected)` where `expected` may be a tuple:
true when `ty` is a subclass of the type or of some tuple member. -/
def Expected.excMatches (issub : ε → ε → Bool) : Expected ε → ε → Bool
  | .single t, ty => issub ty t
  | .tuple ts, ty => ts.any fun t => issub ty t

/-- What `__exit__` can do: raise an error, or return a boolean (with
the possibly updated context object). -/
inductive ExitResult (ε : Type) where
  | raised (e : PyErr)
  | returned (b : Bool) (ctx : RaisesContext ε)
deriving DecidableEq

/-- Python `repr` of a string, as used in the mismatch message
(quoting modelled, escaping elided). -/
def pyReprStr (s : String) : String := "\x27" ++ s ++ "\x27"

/-- `RaisesContext.__exit__`: no exception raises
`AssertionError("DID NOT RAISE ...")`; a non-matching exception type
returns `False` (the exception propagates); a failing `match` raises
`AssertionError`; otherwise the exception is stored in `value` and
`True` is returned (the exception is suppressed). -/
def RaisesContext.exit (ε : Type) (issub : ε → ε → Bool) (excName : ε → String)
    (search : String → String → Bool) (ctx : RaisesContext ε) (exc : Option (Exc ε)) :
    ExitResult ε :=
  match exc with
  | none =>
    match ctx.expectedException with
    | .tuple ts =>
      .raised (.assertionError
        ("DID NOT RAISE any of (" ++ String.intercalate ", " (ts.map excName) ++ ")"))
    | .single t => .raised (.assertionError ("DID NOT RAISE " ++ excName t))
  | some e =>
    if ctx.expectedException.excMatches issub e.ty then
      match ctx.matchExpr with
      | some p =>
        if search p e.msg then .returned true { ctx with value := some e }
        else
          .raised (.assertionError
            ("Regex pattern did not match.\n Regex: " ++ pyReprStr p ++
              "\n Input: " ++ pyReprStr e.msg))
      | none => .returned true { ctx with value := some e }
    else .returned false ctx

/-- The module-level `raises(expected_exception, *, match=None)`
function: validates the exception argument (in this embedding every
inhabitant of `ε` is an exception class, so only the empty-tuple check
can fire) and constructs the context object. -/
def raises (ε : Type) (recompile : String → Except String Unit)
    (expected : Expected ε) (matchArg : Option String) :
    Except PyErr (RaisesContext ε) :=
  match expected with
  | .tuple [] => .error (.valueError "expected_exception must not be empty")
  | _ => RaisesContext.init ε recompile expected matchArg

/-- The boolean outcome of the optional `match` step of `__exit__`. -/
def matchOk (search : String → String → Bool) (matchExpr : Option String) (msg : String) : Bool :=
  match matchExpr with
  | some p => search p msg
  | none => true

/- ## Helper lemmas -/

theorem foldl_counts_add (os : List Outcome) (c : Counts) :
    os.foldl Counts.add c =
      ⟨c.passed + os.count .passed, c.failed + os.count .failed,
        c.skipped + os.count .skipped, c.error + os.count .error⟩ := by
  induction os generalizing c with
  | nil => simp
  | cons a os ih =>
    rw [List.foldl_cons, ih]
    cases a <;> simp [Counts.add, List.count_cons] <;> omega

theorem aggregate_eq (os : List Outcome) :
    aggregate os = ⟨os.count .passed, os.count .failed, os.count .skipped, os.count .error⟩ := by
  unfold aggregate
  rw [foldl_counts_add]
  simp

theorem exitCodeOf_eq_zero (c : Counts) :
    exitCodeOf c = 0 ↔ c.failed = 0 ∧ c.error = 0 := by
  by_cases h : c.failed = 0 ∧ c.error = 0 <;> simp [exitCodeOf, h]

theorem exit_of_outcomes (os : List Outcome) :
    exitCodeOf (aggregate os) = 0 ↔ os.count .failed = 0 ∧ os.count .error = 0 := by
  rw [aggregate_eq, exitCodeOf_eq_zero]

theorem count_eq_zero_of_all_skipped (os : List Outcome) (x : Outcome)
    (hx : x ≠ .skipped) (h : ∀ o ∈ os, o = .skipped) : os.count x = 0 := by
  rw [List.count_eq_zero]
  intro hm
  exact hx (h x hm)

/- ## Claim theorems -/

/-- C1: for every run — worker or driver — over a set of items, the
process exit code is `0` iff the aggregated counts have `failed == 0`
and `error == 0`; in particular a run whose results are all `skipped`
exits `0`. -/
theorem C1_exit_code_iff (runBody : ExecutableItem → BodyOutcome) (mode : DistMode) (w : Nat)
    (items : List ExecutableItem) :
    ((workerRun runBody items).2 = 0 ↔
        ((workerRun runBody items).1.map (·.outcome)).count .failed = 0 ∧
        ((workerRun runBody items).1.map (·.outcome)).count .error = 0)
    ∧ ((driverRun mode w runBody items).2 = 0 ↔
        ((driverRun mode w runBody items).1.map (·.outcome)).count .failed = 0 ∧
        ((driverRun mode w runBody items).1.map (·.outcome)).count .error = 0)
    ∧ ((∀ r ∈ (workerRun runBody items).1, r.outcome = .skipped) →
        (workerRun runBody items).2 = 0)
    ∧ ((∀ r ∈ (driverRun mode w runBody items).1, r.outcome = .skipped) →
        (driverRun mode w runBody items).2 = 0) := by
  have hw : ∀ rs : List ResultRecord, (∀ r ∈ rs, r.outcome = .skipped) →
      exitCodeOf (aggregate (rs.map (·.outcome))) = 0 := by
    intro rs h
    rw [exit_of_outcomes]
    constructor <;>
      refine count_eq_zero_of_all_skipped _ _ (by decide) ?_ <;>
      intro o ho <;>
      obtain ⟨r, hr, rfl⟩ := List.mem_map.mp ho <;>
      exact h r hr
  exact ⟨exit_of_outcomes _, exit_of_outcomes _, fun h => hw _ h, fun h => hw _ h⟩

/-- C1 witness: a worker batch holding one statically skipped item and
a driver run over it both exit `0`. -/
theorem C1_exit_code_iff_witness :
    (workerRun (fun _ => .passes)
      [{ nodeid := "test_a.py::test_skipped", sourceFile := "test_a.py", className := none,
         functionName := "test_skipped", skipReason := some "skip", xdistGroup := none,
         paramBindings := [] }]).2 = 0 :=
  (C1_exit_code_iff (fun _ => .passes) .load 1
    [{ nodeid := "test_a.py::test_skipped", sourceFile := "test_a.py", className := none,
       functionName := "test_skipped", skipReason := some "skip", xdistGroup := none,
       paramBindings := [] }]).2.2.1 (by decide)

/-- C7: a driver invocation whose `--dist` argument is neither `load`
nor `loadgroup` exits with the CLI-misuse code `2`, writes a
human-readable message to the error stream, and runs no tests. -/
theorem C7_invalid_dist_mode (s : String) (w : Nat) (runBody : ExecutableItem → BodyOutcome)
    (items : List ExecutableItem) (h1 : s ≠ "load") (h2 : s ≠ "loadgroup") :
    (driverMain (some s) w runBody items).exitCode = 2
    ∧ (driverMain (some s) w runBody items).errStream ≠ ""
    ∧ (driverMain (some s) w runBody items).results = [] := by
  have hp : parseDistMode s = none := by
    unfold parseDistMode
    rw [if_neg h1, if_neg h2]
  simp only [driverMain, hp]
  refine ⟨trivial, ?_, trivial⟩
  intro hcontr
  have := congrArg String.data hcontr
  simp [String.data_append] at this

/-- C7 witness: the mode string used by the CLI integration test. -/
theorem C7_invalid_dist_mode_witness :
    (driverMain (some "invalid_mode_xyz") 1 (fun _ => .passes) []).exitCode = 2
    ∧ (driverMain (some "invalid_mode_xyz") 1 (fun _ => .passes) []).errStream ≠ ""
    ∧ (driverMain (some "invalid_mode_xyz") 1 (fun _ => .passes) []).results = [] :=
  C7_invalid_dist_mode "invalid_mode_xyz" 1 (fun _ => .passes) [] (by decide) (by decide)

/-- C8: `RaisesContext.__exit__` suppresses a raised exception (returns
`True`, with `value` set to the caught exception) iff the exception's
type passes the `issubclass` test against the expectation (any member
when it is a tuple) and, when a `match` pattern is present,
`re.search` succeeds on `str(exc)`; when the subclass test fails it
returns `False`, leaving the context unchanged so the exception
propagates. -/
theorem C8_exit_suppression_iff (ε : Type) (issub : ε → ε → Bool) (excName : ε → String)
    (search : String → String → Bool) (ctx : RaisesContext ε) (e : Exc ε) :
    (RaisesContext.exit ε issub excName search ctx (some e)
        = .returned true { ctx with value := some e }
      ↔ ctx.expectedException.excMatches issub e.ty = true
        ∧ matchOk search ctx.matchExpr e.msg = true)
    ∧ (ctx.expectedException.excMatches issub e.ty = false →
        RaisesContext.exit ε issub excName search ctx (some e) = .returned false ctx) := by
  unfold RaisesContext.exit matchOk
  cases hm : ctx.expectedException.excMatches issub e.ty <;>
    cases hx : ctx.matchExpr <;>
    simp [hm, hx]

/-- C8 witness: a matching exception type with no `match` pattern is
suppressed: `__exit__` returns `True` and stores the exception. -/
theorem C8_exit_suppression_iff_witness :
    RaisesContext.exit Nat (fun a b => a == b) (fun _ => "ValueError") (fun _ _ => true)
      { expectedException := .single 0, matchExpr := none, value := none } (some ⟨0, "boom"⟩)
      = .returned true
          { expectedException := .single 0, matchExpr := none, value := some ⟨0, "boom"⟩ } :=
  (C8_exit_suppression_iff Nat (fun a b => a == b) (fun _ => "ValueError") (fun _ _ => true)
    { expectedException := .single 0, matchExpr := none, value := none } ⟨0, "boom"⟩).1.mpr
    ⟨rfl, rfl⟩

/-- C9: exiting a `raises` block in which nothing was raised raises an
`AssertionError` with message `DID NOT RAISE` followed by the expected
type's name, or `DID NOT RAISE any of (...)` listing every member when
the expectation is a tuple. -/
theorem C9_did_not_raise (ε : Type) (issub : ε → ε → Bool) (excName : ε → String)
    (search : String → String → Bool) (ctx : RaisesContext ε) :
    (∀ t, ctx.expectedException = .single t →
      RaisesContext.exit ε issub excName search ctx none
        = .raised (.assertionError ("DID NOT RAISE " ++ excName t)))
    ∧ (∀ ts, ctx.expectedException = .tuple ts →
      RaisesContext.exit ε issub excName search ctx none
        = .raised (.assertionError
            ("DID NOT RAISE any of (" ++ String.intercalate ", " (ts.map excName) ++ ")"))) := by
  constructor <;> intro x hx <;> simp [RaisesContext.exit, hx]

/-- C9 witness: with a single expected type named `ValueError`, the
raised assertion message is `DID NOT RAISE ValueError`. -/
theorem C9_did_not_raise_witness :
    RaisesContext.exit Nat (fun a b => a == b) (fun _ => "ValueError") (fun _ _ => true)
      { expectedException := .single 0, matchExpr := none, value := none } none
      = .raised (.assertionError "DID NOT RAISE ValueError") :=
  (C9_did_not_raise Nat (fun a b => a == b) (fun _ => "ValueError") (fun _ _ => true)
    { expectedException := .single 0, matchExpr := none, value := none }).1 0 rfl

/-- C10 counterexample: calling `raises` with the empty tuple and an
invalid regex raises `ValueError("expected_exception must not be
empty")` — a message that does not begin with
`Invalid regex pattern provided to 'match'` — so the claim as stated
fails for `E = ()`. -/
theorem C10_counterexample :
    raises Nat (fun _ => Except.error "unterminated character set") (.tuple [])
        (some "[invalid")
      = .error (.valueError "expected_exception must not be empty")
    ∧ ¬ List.IsPrefix ("Invalid regex pattern provided to \x27match\x27").data
        ("expected_exception must not be empty").data := by
  constructor
  · rfl
  · decide

/-- C10 (amended): for every call `raises(E, match=p)` where `E` is an
exception type or a nonempty tuple of exception types and `p` is not a
valid regular expression, a `ValueError` whose message begins
`Invalid regex pattern provided to 'match'` is raised at construction
time — no context object is produced, so the with-block is never
entered. -/
theorem C10_invalid_regex (ε : Type) (recompile : String → Except String Unit)
    (expected : Expected ε) (p em : String) (hc : recompile p = .error em)
    (hne : expected ≠ .tuple []) :
    raises ε recompile expected (some p)
      = .error (.valueError ("Invalid regex pattern provided to \x27match\x27: " ++ em))
    ∧ List.IsPrefix ("Invalid regex pattern provided to \x27match\x27").data
        ("Invalid regex pattern provided to \x27match\x27: " ++ em).data := by
  constructor
  · match expected, hne with
    | .single t, _ => simp [raises, RaisesContext.init, hc]
    | .tuple [], hne => exact absurd rfl hne
    | .tuple (t :: ts), _ => simp [raises, RaisesContext.init, hc]
  · rw [String.data_append]
    exact List.IsPrefix.trans (by decide)
      (List.prefix_append ("Invalid regex pattern provided to \x27match\x27: ").data em.data)

/-- C10 witness: an invalid pattern with a single valid expected type
produces the regex `ValueError` at construction time. -/
theorem C10_invalid_regex_witness :
    raises Nat (fun _ => Except.error "unterminated character set") (.single 0) (some "[invalid")
      = .error (.valueError
          ("Invalid regex pattern provided to \x27match\x27: " ++ "unterminated character set"))
    ∧ List.IsPrefix ("Invalid regex pattern provided to \x27match\x27").data
        ("Invalid regex pattern provided to \x27match\x27: " ++
          "unterminated character set").data :=
  C10_invalid_regex Nat (fun _ => Except.error "unterminated character set") (.single 0)
    "[invalid" "unterminated character set" rfl (by decide)

/- ## Decimal string lemmas (synthetic case ids) -/

theorem digitVal_digitChar (n : Nat) (h : n < 10) : digitVal (Nat.digitChar n) = n := by
  interval_cases n <;> rfl

theorem digitChar_ne_dash (n : Nat) (h : n < 10) : Nat.digitChar n ≠ '-' := by
  interval_cases n <;> decide

theorem digitsVal_append_digit (l : List Char) (c : Char) :
    digitsVal (l ++ [c]) = 10 * digitsVal l + digitVal c := by
  simp [digitsVal, List.foldl_append]

theorem digitsVal_decDigitsAux (fuel n : Nat) (h : n < fuel) :
    digitsVal (decDigitsAux fuel n) = n := by
  induction fuel generalizing n with
  | zero => omega
  | succ fuel ih =>
    unfold decDigitsAux
    by_cases h10 : n < 10
    · simp [h10, digitsVal, digitVal_digitChar n h10]
    · have hdiv : n / 10 < n := Nat.div_lt_self (by omega) (by omega)
      rw [if_neg h10, digitsVal_append_digit, ih (n / 10) (by omega),
        digitVal_digitChar (n % 10) (by omega)]
      omega

theorem decStr_inj (a b : Nat) (h : decStr a = decStr b) : a = b := by
  have hd := congrArg String.data h
  simp only [decStr] at hd
  have ha := digitsVal_decDigitsAux (a + 1) a (by omega)
  have hb := digitsVal_decDigitsAux (b + 1) b (by omega)
  rw [← ha, ← hb, hd]

theorem dash_not_mem_decDigitsAux (fuel n : Nat) : '-' ∉ decDigitsAux fuel n := by
  induction fuel generalizing n with
  | zero => simp [decDigitsAux]
  | succ fuel ih =>
    unfold decDigitsAux
    by_cases h10 : n < 10
    · simp only [h10, if_true, List.mem_singleton]
      exact fun hc => digitChar_ne_dash n h10 hc.symm
    · rw [if_neg h10]
      intro hc
      rcases List.mem_append.mp hc with hc | hc
      · exact ih (n / 10) hc
      · exact digitChar_ne_dash (n % 10) (by omega) (List.mem_singleton.mp hc).symm

theorem dash_not_mem_decStr (n : Nat) : '-' ∉ (decStr n).data :=
  dash_not_mem_decDigitsAux (n + 1) n

/- ## Dash-separated joining is injective on dash-free components -/

theorem dash_split_unique (a1 : List Char) : ∀ (a2 r1 r2 : List Char), '-' ∉ a1 → '-' ∉ a2 →
    a1 ++ '-' :: r1 = a2 ++ '-' :: r2 → a1 = a2 ∧ r1 = r2 := by
  induction a1 with
  | nil =>
    intro a2 r1 r2 _ h2 heq
    cases a2 with
    | nil => simpa using heq
    | cons b a2 =>
      simp only [List.nil_append, List.cons_append, List.cons.injEq] at heq
      exact absurd (heq.1 ▸ List.mem_cons_self b a2) (heq.1 ▸ h2)
  | cons c a1 ih =>
    intro a2 r1 r2 h1 h2 heq
    cases a2 with
    | nil =>
      simp only [List.cons_append, List.nil_append, List.cons.injEq] at heq
      exact absurd (heq.1 ▸ List.mem_cons_self c a1) (fun hm => h1 (heq.1 ▸ hm))
    | cons b a2 =>
      simp only [List.cons_append, List.cons.injEq] at heq
      obtain ⟨rfl, heq⟩ := heq
      have := ih a2 r1 r2 (fun hm => h1 (List.mem_cons_of_mem _ hm))
        (fun hm => h2 (List.mem_cons_of_mem _ hm)) heq
      exact ⟨by rw [this.1], this.2⟩

/- ## Index tuple enumeration lemmas -/

theorem length_flatMap_uniform (l : List α) (f : α → List β) (m : Nat)
    (hm : ∀ a ∈ l, (f a).length = m) : (l.flatMap f).length = l.length * m := by
  induction l with
  | nil => simp
  | cons a l ih =>
    simp only [List.flatMap_cons, List.length_append, hm a (List.mem_cons_self a l),
      ih fun x hx => hm x (List.mem_cons_of_mem a hx), List.length_cons]
    ring

theorem length_indexTuples (cs : List Nat) : (indexTuples cs).length = cs.prod := by
  induction cs with
  | nil => rfl
  | cons c cs ih =>
    rw [indexTuples, length_flatMap_uniform (List.range c) _ (indexTuples cs).length
      (fun a _ => by simp), List.length_range, ih, List.prod_cons]

theorem mem_indexTuples_forall₂ (cs : List Nat) (t : List Nat) (h : t ∈ indexTuples cs) :
    List.Forall₂ (· < ·) t cs := by
  induction cs generalizing t with
  | nil =>
    simp only [indexTuples, List.mem_singleton] at h
    subst h
    exact List.Forall₂.nil
  | cons c cs ih =>
    simp only [indexTuples, List.mem_flatMap, List.mem_map, List.mem_range] at h
    obtain ⟨i, hi, t', ht', rfl⟩ := h
    exact List.Forall₂.cons hi (ih t' ht')

theorem nodup_indexTuples (cs : List Nat) : (indexTuples cs).Nodup := by
  induction cs with
  | nil => simp [indexTuples]
  | cons c cs ih =>
    rw [indexTuples, List.nodup_flatMap]
    constructor
    · intro i _
      exact ih.map fun a b hab => by injection hab
    · have := List.nodup_range c
      refine this.pairwise_of_forall_ne fun i _ j _ hij => ?_
      intro x hx1 hx2
      obtain ⟨t1, _, rfl⟩ := List.mem_map.mp hx1
      obtain ⟨t2, _, heq⟩ := List.mem_map.mp hx2
      injection heq with h1 _
      exact hij h1.symm

theorem getElem?_flatMap_uniform (l : List α) (f : α → List β) (m : Nat)
    (hm : ∀ a ∈ l, (f a).length = m) (i j : Nat) (hj : j < m) :
    (l.flatMap f)[i * m + j]? = l[i]?.bind fun a => (f a)[j]? := by
  induction l generalizing i with
  | nil => simp
  | cons a l ih =>
    rw [List.flatMap_cons]
    cases i with
    | zero =>
      rw [Nat.zero_mul, Nat.zero_add,
        List.getElem?_append_left (by rw [hm a (List.mem_cons_self a l)]; exact hj)]
      simp
    | succ i =>
      have hlen : (f a).length = m := hm a (List.mem_cons_self a l)
      have hle : (f a).length ≤ (i + 1) * m + j := by
        rw [hlen, Nat.succ_mul]
        omega
      rw [List.getElem?_append_right hle, hlen]
      have harith : (i + 1) * m + j - m = i * m + j := by
        rw [Nat.succ_mul]
        omega
      rw [harith, ih (fun x hx => hm x (List.mem_cons_of_mem a hx)) i]
      simp

theorem flatIndex_lt_prod (cs t : List Nat) (h : List.Forall₂ (· < ·) t cs) :
    flatIndex cs t < cs.prod := by
  induction h with
  | nil => simp [flatIndex]
  | @cons i c t cs hic htail ih =>
    show i * (cs.foldr (· * ·) 1) + flatIndex cs t < (c :: cs).prod
    rw [List.prod_cons]
    have hfold : cs.foldr (· * ·) 1 = cs.prod := (List.prod_eq_foldr).symm
    rw [hfold]
    calc i * cs.prod + flatIndex cs t < i * cs.prod + cs.prod := by omega
    _ = (i + 1) * cs.prod := by ring
    _ ≤ c * cs.prod := Nat.mul_le_mul_right _ hic

theorem getElem?_indexTuples (cs t : List Nat) (h : List.Forall₂ (· < ·) t cs) :
    (indexTuples cs)[flatIndex cs t]? = some t := by
  induction h with
  | nil => rfl
  | @cons i c t cs hic htail ih =>
    show (indexTuples (c :: cs))[i * (cs.foldr (· * ·) 1) + flatIndex cs t]? = some (i :: t)
    have hfold : cs.foldr (· * ·) 1 = cs.prod := (List.prod_eq_foldr).symm
    rw [indexTuples, hfold,
      getElem?_flatMap_uniform (List.range c) _ cs.prod
        (fun a _ => by rw [List.length_map, length_indexTuples])
        i (flatIndex cs t) (flatIndex_lt_prod cs t htail),
      List.getElem?_range hic]
    simp only [Option.bind_some, List.getElem?_map, ih, Option.map_some]
    rfl

theorem caseIdOf_mem_caseIdsOf (p : Parametrize) (i : Nat) (hi : i < p.cases.length) :
    caseIdOf p i ∈ caseIdsOf p :=
  List.mem_map.mpr ⟨i, List.mem_range.mpr hi, rfl⟩

theorem caseIdOf_inj_of_nodup (p : Parametrize) (hn : (caseIdsOf p).Nodup)
    (i j : Nat) (hi : i < p.cases.length) (hj : j < p.cases.length)
    (h : caseIdOf p i = caseIdOf p j) : i = j :=
  List.inj_on_of_nodup_map hn (List.mem_range.mpr hi) (List.mem_range.mpr hj) h

theorem zip_caseIds_inj (ps : List Parametrize) : ∀ (t1 t2 : List Nat),
    (∀ p ∈ ps, (caseIdsOf p).Nodup ∧ ∀ s ∈ caseIdsOf p, '-' ∉ s.data) →
    List.Forall₂ (· < ·) t1 (ps.map fun p => p.cases.length) →
    List.Forall₂ (· < ·) t2 (ps.map fun p => p.cases.length) →
    joinDash (List.zipWith caseIdOf ps t1) = joinDash (List.zipWith caseIdOf ps t2) →
    t1 = t2 := by
  induction ps with
  | nil =>
    intro t1 t2 _ h1 h2 _
    cases h1
    cases h2
    rfl
  | cons p ps ih =>
    intro t1 t2 hgood h1 h2 heq
    rcases h1 with _ | ⟨hi1, ht1⟩
    rcases h2 with _ | ⟨hi2, ht2⟩
    rename_i i1 t1 i2 t2
    have hpg := hgood p (List.mem_cons_self p ps)
    cases ps with
    | nil =>
      cases ht1
      cases ht2
      have : caseIdOf p i1 = caseIdOf p i2 := heq
      rw [caseIdOf_inj_of_nodup p hpg.1 i1 i2 hi1 hi2 this]
    | cons q ps' =>
      rcases ht1 with _ | ⟨hj1, hu1⟩
      rcases ht2 with _ | ⟨hj2, hu2⟩
      rename_i j1 u1 j2 u2
      have hd := congrArg String.data heq
      simp only [List.zipWith_cons_cons, joinDash, String.data_append] at hd
      rw [List.append_assoc, List.append_assoc] at hd
      have hsplit := dash_split_unique (caseIdOf p i1).data (caseIdOf p i2).data
        ((joinDash (List.zipWith caseIdOf (q :: ps') (j1 :: u1))).data)
        ((joinDash (List.zipWith caseIdOf (q :: ps') (j2 :: u2))).data)
        (hpg.2 _ (caseIdOf_mem_caseIdsOf p i1 hi1))
        (hpg.2 _ (caseIdOf_mem_caseIdsOf p i2 hi2))
        (by simpa using hd)
      have hhead : i1 = i2 :=
        caseIdOf_inj_of_nodup p hpg.1 i1 i2 hi1 hi2 (String.ext hsplit.1)
      have htails : (j1 :: u1 : List Nat) = (j2 :: u2 : List Nat) :=
        ih (j1 :: u1) (j2 :: u2)
          (fun x hx => hgood x (List.mem_cons_of_mem p hx))
          (List.Forall₂.cons hj1 hu1) (List.Forall₂.cons hj2 hu2)
          (String.ext hsplit.2)
      rw [hhead, htails]

theorem bracket_strings_inj (stem a b : String)
    (h : stem ++ "[" ++ a ++ "]" = stem ++ "[" ++ b ++ "]") : a = b := by
  have hd := congrArg String.data h
  simp only [String.data_append, List.append_assoc] at hd
  have h1 := List.append_cancel_left hd
  have h2 := List.append_cancel_left h1
  exact String.ext (List.append_cancel_right h2)

/-- C2 counterexample: a single parametrize decorator with the explicit
ids `["dup", "dup"]` expands to two ExecutableItems whose NodeIds
coincide, so the distinctness half of the claim fails as stated. -/
theorem C2_counterexample :
    (expandItem
      { nodeidStem := "test_a.py::test_v", sourceFile := "test_a.py", className := none,
        functionName := "test_v",
        markers := [.parametrize ⟨["v"], [⟨["1"]⟩, ⟨["2"]⟩], some ["dup", "dup"]⟩] }).length = 2
    ∧ ¬ ((expandItem
      { nodeidStem := "test_a.py::test_v", sourceFile := "test_a.py", className := none,
        functionName := "test_v",
        markers := [.parametrize ⟨["v"], [⟨["1"]⟩, ⟨["2"]⟩], some ["dup", "dup"]⟩] }).map
        (·.nodeid)).Nodup := by
  constructor
  · rfl
  · decide

/-- C2 (amended): expansion of a stack with case counts `c_1, …, c_k`
yields exactly `∏ c_i` ExecutableItems, and their NodeIds are pairwise
distinct provided each decorator's case ids are pairwise distinct and
contain no `-` — a condition synthetic (decimal-index) ids always
satisfy, so it can only fail when explicit `ids` repeat or contain a
hyphen. -/
theorem C2_expansion_product (it : TestItem) :
    (expandItem it).length = ((paramStackOf it.markers).map fun p => p.cases.length).prod
    ∧ ((∀ p ∈ paramStackOf it.markers,
          (caseIdsOf p).Nodup ∧ ∀ s ∈ caseIdsOf p, '-' ∉ s.data) →
        ((expandItem it).map (·.nodeid)).Nodup)
    ∧ (∀ p : Parametrize, p.ids = none →
        (caseIdsOf p).Nodup ∧ ∀ s ∈ caseIdsOf p, '-' ∉ s.data) := by
  refine ⟨?_, ?_, ?_⟩
  · simp only [expandItem, List.length_map]
    exact length_indexTuples _
  · intro hgood
    simp only [expandItem, List.map_map]
    refine List.Nodup.map_on ?_ (nodup_indexTuples _)
    intro t1 h1 t2 h2 heq
    have f1 := mem_indexTuples_forall₂ _ t1 h1
    have f2 := mem_indexTuples_forall₂ _ t2 h2
    cases hps : paramStackOf it.markers with
    | nil =>
      rw [hps] at f1 f2
      simp only [List.map_nil] at f1 f2
      rw [List.forall₂_nil_right_iff.mp f1, List.forall₂_nil_right_iff.mp f2]
    | cons p ps' =>
      rw [hps] at f1 f2
      have heq' : nodeIdOf it.nodeidStem (paramStackOf it.markers) t1
          = nodeIdOf it.nodeidStem (paramStackOf it.markers) t2 := heq
      rw [hps] at heq'
      rcases f1 with _ | ⟨hi1, hu1⟩
      rcases f2 with _ | ⟨hi2, hu2⟩
      rename_i i1 u1 i2 u2
      have hcomb := bracket_strings_inj it.nodeidStem _ _ heq'
      exact zip_caseIds_inj (p :: ps') (i1 :: u1) (i2 :: u2)
        (fun x hx => hgood x (hps ▸ hx))
        (List.Forall₂.cons hi1 hu1) (List.Forall₂.cons hi2 hu2) hcomb
  · intro p hp
    have hmap : caseIdsOf p = (List.range p.cases.length).map decStr :=
      List.map_congr_left fun i _ => by simp [caseIdOf, hp]
    constructor
    · rw [hmap]
      exact (List.nodup_range p.cases.length).map fun a b => decStr_inj a b
    · intro s hs
      rw [hmap] at hs
      obtain ⟨i, _, rfl⟩ := List.mem_map.mp hs
      exact dash_not_mem_decStr i

/-- C2 witness: two stacked synthetic two-case decorators give four
items with pairwise distinct NodeIds. -/
theorem C2_expansion_product_witness :
    (expandItem
      { nodeidStem := "test_a.py::test_xy", sourceFile := "test_a.py", className := none,
        functionName := "test_xy",
        markers := [.parametrize ⟨["a"], [⟨["1"]⟩, ⟨["2"]⟩], none⟩,
                    .parametrize ⟨["b"], [⟨["1"]⟩, ⟨["2"]⟩], none⟩] }).length = 4
    ∧ ((expandItem
      { nodeidStem := "test_a.py::test_xy", sourceFile := "test_a.py", className := none,
        functionName := "test_xy",
        markers := [.parametrize ⟨["a"], [⟨["1"]⟩, ⟨["2"]⟩], none⟩,
                    .parametrize ⟨["b"], [⟨["1"]⟩, ⟨["2"]⟩], none⟩] }).map (·.nodeid)).Nodup :=
  ⟨(C2_expansion_product
      { nodeidStem := "test_a.py::test_xy", sourceFile := "test_a.py", className := none,
        functionName := "test_xy",
        markers := [.parametrize ⟨["a"], [⟨["1"]⟩, ⟨["2"]⟩], none⟩,
                    .parametrize ⟨["b"], [⟨["1"]⟩, ⟨["2"]⟩], none⟩] }).1,
   (C2_expansion_product
      { nodeidStem := "test_a.py::test_xy", sourceFile := "test_a.py", className := none,
        functionName := "test_xy",
        markers := [.parametrize ⟨["a"], [⟨["1"]⟩, ⟨["2"]⟩], none⟩,
                    .parametrize ⟨["b"], [⟨["1"]⟩, ⟨["2"]⟩], none⟩] }).2.1 (by decide)⟩

/-- C3: the expanded item at mixed-radix position `flatIndex` of the
case universe (outermost index most significant, i.e. varying slowest)
carries the NodeId whose bracketed id is the per-decorator case ids
joined by `-`, outermost to innermost; synthetic ids are the decimal
index strings; in particular two stacked two-case decorators enumerate
`0-0, 0-1, 1-0, 1-1`. -/
theorem C3_combined_case_ids (it : TestItem) (t : List Nat)
    (hps : paramStackOf it.markers ≠ [])
    (ht : List.Forall₂ (· < ·) t ((paramStackOf it.markers).map fun p => p.cases.length)) :
    ((expandItem it).map (·.nodeid))[flatIndex
        ((paramStackOf it.markers).map fun p => p.cases.length) t]?
      = some (it.nodeidStem ++ "[" ++
          joinDash (List.zipWith caseIdOf (paramStackOf it.markers) t) ++ "]")
    ∧ (∀ p : Parametrize, p.ids = none → ∀ i, caseIdOf p i = decStr i)
    ∧ ((expandItem
        { nodeidStem := "test_a.py::test_xy", sourceFile := "test_a.py", className := none,
          functionName := "test_xy",
          markers := [.parametrize ⟨["a"], [⟨["1"]⟩, ⟨["2"]⟩], none⟩,
                      .parametrize ⟨["b"], [⟨["1"]⟩, ⟨["2"]⟩], none⟩] }).map (·.nodeid))
      = ["test_a.py::test_xy[0-0]", "test_a.py::test_xy[0-1]",
         "test_a.py::test_xy[1-0]", "test_a.py::test_xy[1-1]"] := by
  refine ⟨?_, ?_, ?_⟩
  · simp only [expandItem, List.map_map]
    rw [List.getElem?_map, getElem?_indexTuples _ t ht]
    cases t with
    | nil =>
      exact absurd (List.map_eq_nil_iff.mp (List.forall₂_nil_left_iff.mp ht)) hps
    | cons i u => rfl
  · intro p hp i
    simp [caseIdOf, hp]
  · decide

/-- C3 witness: in the concrete stacked example, position
`flatIndex [2, 2] [1, 0] = 2` holds the NodeId with combined id
`1-0`. -/
theorem C3_combined_case_ids_witness :
    ((expandItem
      { nodeidStem := "test_a.py::test_xy", sourceFile := "test_a.py", className := none,
        functionName := "test_xy",
        markers := [.parametrize ⟨["a"], [⟨["1"]⟩, ⟨["2"]⟩], none⟩,
                    .parametrize ⟨["b"], [⟨["1"]⟩, ⟨["2"]⟩], none⟩] }).map (·.nodeid))[2]?
      = some "test_a.py::test_xy[1-0]" :=
  (C3_combined_case_ids
    { nodeidStem := "test_a.py::test_xy", sourceFile := "test_a.py", className := none,
      functionName := "test_xy",
      markers := [.parametrize ⟨["a"], [⟨["1"]⟩, ⟨["2"]⟩], none⟩,
                  .parametrize ⟨["b"], [⟨["1"]⟩, ⟨["2"]⟩], none⟩] } [1, 0]
    (by decide)
    (List.Forall₂.cons (by decide) (List.Forall₂.cons (by decide) List.Forall₂.nil))).1

/-- C4: recognition of a marker decorator is invariant under how the
marker symbol was bound — direct import, aliased module import,
from-import, from-import with alias, and a file mixing all four styles
resolve the same decorator (same arguments, any spelling of the chain)
to the same recognized marker with the same parameters, and the result
is never an `unknown` marker.  (`pt`, `m` name the aliases of the
integration tests.) -/
theorem C4_import_style_invariance (rest : List String) (pos : List PyExpr)
    (kw : List (String × PyExpr)) (h : recognizedMarkPath ("mark" :: rest) = true) :
    (scanDecorator [.direct "pytest"] ⟨"pytest" :: "mark" :: rest, pos, kw⟩
        = scanDecorator [.directAs "pytest" "pt"] ⟨"pt" :: "mark" :: rest, pos, kw⟩
      ∧ scanDecorator [.direct "pytest"] ⟨"pytest" :: "mark" :: rest, pos, kw⟩
        = scanDecorator [.fromImport "pytest" "mark"] ⟨"mark" :: rest, pos, kw⟩
      ∧ scanDecorator [.direct "pytest"] ⟨"pytest" :: "mark" :: rest, pos, kw⟩
        = scanDecorator [.fromImportAs "pytest" "mark" "m"] ⟨"m" :: rest, pos, kw⟩)
    ∧ (scanDecorator
          [.direct "pytest", .fromImport "pytest" "mark", .directAs "pytest" "pt",
            .fromImportAs "pytest" "mark" "m"] ⟨"pytest" :: "mark" :: rest, pos, kw⟩
        = scanDecorator [.direct "pytest"] ⟨"pytest" :: "mark" :: rest, pos, kw⟩
      ∧ scanDecorator
          [.direct "pytest", .fromImport "pytest" "mark", .directAs "pytest" "pt",
            .fromImportAs "pytest" "mark" "m"] ⟨"pt" :: "mark" :: rest, pos, kw⟩
        = scanDecorator [.direct "pytest"] ⟨"pytest" :: "mark" :: rest, pos, kw⟩
      ∧ scanDecorator
          [.direct "pytest", .fromImport "pytest" "mark", .directAs "pytest" "pt",
            .fromImportAs "pytest" "mark" "m"] ⟨"mark" :: rest, pos, kw⟩
        = scanDecorator [.direct "pytest"] ⟨"pytest" :: "mark" :: rest, pos, kw⟩
      ∧ scanDecorator
          [.direct "pytest", .fromImport "pytest" "mark", .directAs "pytest" "pt",
            .fromImportAs "pytest" "mark" "m"] ⟨"m" :: rest, pos, kw⟩
        = scanDecorator [.direct "pytest"] ⟨"pytest" :: "mark" :: rest, pos, kw⟩)
    ∧ (scanDecorator [.direct "pytest"] ⟨"pytest" :: "mark" :: rest, pos, kw⟩).bind recognizedOf
        = scanDecorator [.direct "pytest"] ⟨"pytest" :: "mark" :: rest, pos, kw⟩ := by
  have hr : rest = ["parametrize"] ∨ rest = ["skip"] ∨ rest = ["xdist_group"] := by
    simp only [recognizedMarkPath, decide_eq_true_eq, List.cons.injEq, true_and] at h
    exact h
  rcases hr with rfl | rfl | rfl
  · refine ⟨⟨rfl, rfl, rfl⟩, ⟨rfl, rfl, rfl, rfl⟩, ?_⟩
    show ((parseParametrize pos kw).map Marker.parametrize).bind recognizedOf
        = (parseParametrize pos kw).map Marker.parametrize
    cases parseParametrize pos kw <;> rfl
  · refine ⟨⟨rfl, rfl, rfl⟩, ⟨rfl, rfl, rfl, rfl⟩, ?_⟩
    show ((parseSkipArgs pos kw).map Marker.skip).bind recognizedOf
        = (parseSkipArgs pos kw).map Marker.skip
    cases parseSkipArgs pos kw <;> rfl
  · refine ⟨⟨rfl, rfl, rfl⟩, ⟨rfl, rfl, rfl, rfl⟩, ?_⟩
    show ((parseGroupArgs pos kw).map Marker.xdistGroup).bind recognizedOf
        = (parseGroupArgs pos kw).map Marker.xdistGroup
    cases parseGroupArgs pos kw <;> rfl

/-- C4 witness: the `xdist_group("g")` decorator of scenario S4 scans
identically through `import pytest` and `from pytest import mark as
m`. -/
theorem C4_import_style_invariance_witness :
    scanDecorator [.direct "pytest"]
        ⟨["pytest", "mark", "xdist_group"], [.strLit "g"], []⟩
      = scanDecorator [.fromImportAs "pytest" "mark" "m"]
        ⟨["m", "xdist_group"], [.strLit "g"], []⟩ :=
  (C4_import_style_invariance ["xdist_group"] [.strLit "g"] [] (by decide)).1.2.2

theorem firstSkipReason_append_of_some (a b : List Marker) (r : String)
    (h : firstSkipReason a = some r) : firstSkipReason (a ++ b) = some r := by
  induction a with
  | nil => simp [firstSkipReason] at h
  | cons m a ih =>
    cases m with
    | skip r' => simpa [firstSkipReason] using h
    | parametrize p => exact ih (by simpa [firstSkipReason] using h)
    | xdistGroup g => exact ih (by simpa [firstSkipReason] using h)
    | unknown c => exact ih (by simpa [firstSkipReason] using h)

theorem workerRun_exit_zero_of_skipped (runBody : ExecutableItem → BodyOutcome)
    (items : List ExecutableItem) (h : ∀ it ∈ items, ∃ r, it.skipReason = some r) :
    (workerRun runBody items).2 = 0 := by
  show exitCodeOf (aggregate (((items.map (runItem runBody)).map (·.outcome)))) = 0
  rw [exit_of_outcomes]
  constructor <;>
    refine count_eq_zero_of_all_skipped _ _ (by decide) ?_ <;>
    intro o ho <;>
    obtain ⟨x, hx, rfl⟩ := List.mem_map.mp ho <;>
    obtain ⟨it, hit, rfl⟩ := List.mem_map.mp hx <;>
    obtain ⟨r, hr⟩ := h it hit <;>
    simp [runItem, hr]

/-- C6: for a test class whose (outermost) markers carry a `Skip` with
reason `r`, every ExecutableItem expanded from the class's `test_`
methods inherits `skip_reason = r`, the worker reports it `skipped`
with `error.reason = r`, the result record is independent of the test
bodies (so no body side effect is observable), and a worker run over
exactly these items exits `0`. -/
theorem C6_class_skip (file cls r : String) (classMarkers : List Marker)
    (methods : List (String × List Marker))
    (hskip : firstSkipReason classMarkers = some r)
    (f g : ExecutableItem → BodyOutcome) :
    (∀ item ∈ (itemsOfClass file cls classMarkers methods).flatMap expandItem,
      item.skipReason = some r
      ∧ runItem f item
          = { nodeid := item.nodeid, outcome := .skipped, errorReason := some r,
              errorType := none }
      ∧ runItem f item = runItem g item)
    ∧ (workerRun f ((itemsOfClass file cls classMarkers methods).flatMap expandItem)).2
        = 0 := by
  have hmem : ∀ item ∈ (itemsOfClass file cls classMarkers methods).flatMap expandItem,
      item.skipReason = some r := by
    intro item hitem
    obtain ⟨ti, hti, hexp⟩ := List.mem_flatMap.mp hitem
    obtain ⟨m, _, rfl⟩ := List.mem_map.mp hti
    obtain ⟨t, _, rfl⟩ := List.mem_map.mp hexp
    exact firstSkipReason_append_of_some classMarkers m.2 r hskip
  constructor
  · intro item hitem
    have hsr := hmem item hitem
    refine ⟨hsr, ?_, ?_⟩ <;> simp [runItem, hsr]
  · exact workerRun_exit_zero_of_skipped f _ fun it hit => ⟨r, hmem it hit⟩

/-- C6 witness: scenario S6 — a class skipped with reason `r` and two
methods: the worker exits `0` and the first expanded item is reported
skipped with reason `r` whatever the bodies would do. -/
theorem C6_class_skip_witness :
    (∀ item ∈ (itemsOfClass "test_skip.py" "TestSkippedClass" [Marker.skip (some "r")]
        [("test_one", []), ("test_two", [])]).flatMap expandItem,
      item.skipReason = some "r"
      ∧ runItem (fun _ => BodyOutcome.passes) item
          = { nodeid := item.nodeid, outcome := .skipped, errorReason := some "r",
              errorType := none }
      ∧ runItem (fun _ => BodyOutcome.passes) item
          = runItem (fun _ => BodyOutcome.assertionFails) item)
    ∧ (workerRun (fun _ => BodyOutcome.passes)
        ((itemsOfClass "test_skip.py" "TestSkippedClass" [Marker.skip (some "r")]
          [("test_one", []), ("test_two", [])]).flatMap expandItem)).2 = 0 :=
  C6_class_skip "test_skip.py" "TestSkippedClass" "r" [Marker.skip (some "r")]
    [("test_one", []), ("test_two", [])] rfl
    (fun _ => BodyOutcome.passes) (fun _ => BodyOutcome.assertionFails)

/- ## Scheduler lemmas -/

theorem mem_insertLe (le : α → α → Bool) (a x : α) (l : List α) :
    x ∈ insertLe le a l ↔ x = a ∨ x ∈ l := by
  induction l with
  | nil => simp [insertLe]
  | cons b l ih =>
    unfold insertLe
    by_cases hle : le a b
    · simp [hle]
    · simp [hle, ih]
      tauto

theorem mem_sortLe (le : α → α → Bool) (x : α) (l : List α) :
    x ∈ sortLe le l ↔ x ∈ l := by
  induction l with
  | nil => simp [sortLe]
  | cons a l ih => simp [sortLe, mem_insertLe, ih]

theorem foldl_pick_lt (loads : List Nat) :
    ∀ (l : List Nat) (init n : Nat), init < n → (∀ i ∈ l, i < n) →
    (l.foldl (fun best i => if loads.getD i 0 < loads.getD best 0 then i else best) init) < n := by
  intro l
  induction l with
  | nil => intro init n hinit _; exact hinit
  | cons i l ih =>
    intro init n hinit hl
    rw [List.foldl_cons]
    refine ih _ n ?_ fun j hj => hl j (List.mem_cons_of_mem i hj)
    by_cases hc : loads.getD i 0 < loads.getD init 0
    · rw [if_pos hc]
      exact hl i (List.mem_cons_self i l)
    · rw [if_neg hc]
      exact hinit

theorem minLoadIndex_lt (loads : List Nat) (h : loads ≠ []) :
    minLoadIndex loads < loads.length := by
  unfold minLoadIndex
  exact foldl_pick_lt loads _ 0 loads.length (List.length_pos.mpr h)
    fun i hi => List.mem_range.mp hi

theorem length_assignStep (buckets : List (List ExecutableItem))
    (g : String × List ExecutableItem) :
    (assignStep buckets g).length = buckets.length := by
  simp [assignStep]

theorem getD_assignStep_untouched (buckets : List (List ExecutableItem))
    (g : String × List ExecutableItem) (w : Nat)
    (hw : w ≠ minLoadIndex (buckets.map (·.length))) :
    (assignStep buckets g).getD w [] = buckets.getD w [] := by
  unfold assignStep
  rw [List.getD_eq_getElem?_getD, List.getElem?_set_ne (fun hc => hw hc.symm),
    ← List.getD_eq_getElem?_getD]

theorem mem_getD_foldl_assignStep (gs : List (String × List ExecutableItem)) :
    ∀ (buckets : List (List ExecutableItem)) (w : Nat) (x : ExecutableItem),
      x ∈ buckets.getD w [] → x ∈ (gs.foldl assignStep buckets).getD w [] := by
  induction gs with
  | nil => intro buckets w x hx; exact hx
  | cons g gs ih =>
    intro buckets w x hx
    rw [List.foldl_cons]
    refine ih (assignStep buckets g) w x ?_
    by_cases hw : w = minLoadIndex (buckets.map (·.length))
    · by_cases hlen : minLoadIndex (buckets.map (·.length)) < buckets.length
      · subst hw
        unfold assignStep
        rw [List.getD_eq_getElem?_getD, List.getElem?_set_self hlen]
        exact List.mem_append_left _ hx
      · exfalso
        rw [List.getD_eq_getElem?_getD, hw, List.getElem?_eq_none (by omega)] at hx
        simp at hx
    · rw [getD_assignStep_untouched buckets g w hw]
      exact hx

theorem foldl_assignStep_places (gs : List (String × List ExecutableItem)) :
    ∀ (buckets : List (List ExecutableItem)), buckets ≠ [] →
      ∀ g ∈ gs, ∃ w, w < buckets.length ∧
        ∀ x ∈ g.2, x ∈ (gs.foldl assignStep buckets).getD w [] := by
  induction gs with
  | nil => intro _ _ g hg; cases hg
  | cons g' gs ih =>
    intro buckets hne g hg
    rw [List.foldl_cons]
    have hlt : minLoadIndex (buckets.map (·.length)) < buckets.length := by
      have := minLoadIndex_lt (buckets.map (·.length)) (by simpa using hne)
      simpa using this
    rcases List.mem_cons.mp hg with rfl | hg'
    · refine ⟨minLoadIndex (buckets.map (·.length)), hlt, ?_⟩
      intro x hx
      refine mem_getD_foldl_assignStep gs (assignStep buckets g) _ x ?_
      unfold assignStep
      rw [List.getD_eq_getElem?_getD, List.getElem?_set_self hlt]
      exact List.mem_append_right _ hx
    · have hne' : assignStep buckets g' ≠ [] := by
        intro hc
        have := congrArg List.length hc
        rw [length_assignStep] at this
        exact hne (List.length_eq_zero.mp this)
      obtain ⟨w, hw, hmem⟩ := ih (assignStep buckets g') hne' g hg'
      rw [length_assignStep] at hw
      exact ⟨w, hw, hmem⟩

theorem group_mem_groupsOf (items : List ExecutableItem) (gname : String)
    (i : ExecutableItem) (hi : i ∈ items) (hg : i.xdistGroup = some gname) :
    (gname, items.filter fun it => it.xdistGroup = some gname) ∈ groupsOf .loadgroup items
    ∧ i ∈ items.filter fun it => it.xdistGroup = some gname := by
  constructor
  · refine List.mem_append_left _ (List.mem_map.mpr ⟨gname, ?_, rfl⟩)
    exact List.mem_dedup.mpr (List.mem_filterMap.mpr ⟨i, hi, hg⟩)
  · exact List.mem_filter.mpr ⟨hi, by simp [hg]⟩

/-- C5: in `loadgroup` mode, any two ExecutableItems carrying the same
`xdist_group` name are placed in the same worker's bucket by the Group
Scheduler — group affinity is never violated. -/
theorem C5_group_affinity (W : Nat) (hW : 0 < W) (items : List ExecutableItem)
    (g : String) (i1 i2 : ExecutableItem) (h1 : i1 ∈ items) (h2 : i2 ∈ items)
    (hg1 : i1.xdistGroup = some g) (hg2 : i2.xdistGroup = some g) :
    ∃ w, w < W ∧ i1 ∈ (schedule .loadgroup W items).getD w []
      ∧ i2 ∈ (schedule .loadgroup W items).getD w [] := by
  have hmem1 := group_mem_groupsOf items g i1 h1 hg1
  have hmem2 := (group_mem_groupsOf items g i2 h2 hg2).2
  have hsort : (g, items.filter fun it => it.xdistGroup = some g)
      ∈ sortLe groupLe (groupsOf .loadgroup items) :=
    (mem_sortLe _ _ _).mpr hmem1.1
  have hne : (List.replicate W ([] : List ExecutableItem)) ≠ [] := by
    intro hc
    have := congrArg List.length hc
    rw [List.length_replicate] at this
    simp at this
    omega
  obtain ⟨w, hw, hplace⟩ := foldl_assignStep_places
    (sortLe groupLe (groupsOf .loadgroup items)) (List.replicate W []) hne _ hsort
  rw [List.length_replicate] at hw
  exact ⟨w, hw, hplace i1 hmem1.2, hplace i2 hmem2⟩

/-- C5 witness: two `database`-group items scheduled over two workers
share one bucket. -/
theorem C5_group_affinity_witness :
    ∃ w, w < 2
      ∧ ({ nodeid := "test_db.py::test_db1", sourceFile := "test_db.py", className := none,
           functionName := "test_db1", skipReason := none, xdistGroup := some "database",
           paramBindings := [] } : ExecutableItem)
          ∈ (schedule .loadgroup 2
              [{ nodeid := "test_db.py::test_db1", sourceFile := "test_db.py",
                 className := none, functionName := "test_db1", skipReason := none,
                 xdistGroup := some "database", paramBindings := [] },
               { nodeid := "test_db.py::test_db2", sourceFile := "test_db.py",
                 className := none, functionName := "test_db2", skipReason := none,
                 xdistGroup := some "database", paramBindings := [] }]).getD w []
      ∧ ({ nodeid := "test_db.py::test_db2", sourceFile := "test_db.py", className := none,
           functionName := "test_db2", skipReason := none, xdistGroup := some "database",
           paramBindings := [] } : ExecutableItem)
          ∈ (schedule .loadgroup 2
              [{ nodeid := "test_db.py::test_db1", sourceFile := "test_db.py",
                 className := none, functionName := "test_db1", skipReason := none,
                 xdistGroup := some "database", paramBindings := [] },
               { nodeid := "test_db.py::test_db2", sourceFile := "test_db.py",
                 className := none, functionName := "test_db2", skipReason := none,
                 xdistGroup := some "database", paramBindings := [] }]).getD w [] :=
  C5_group_affinity 2 (by decide)
    [{ nodeid := "test_db.py::test_db1", sourceFile := "test_db.py", className := none,
       functionName := "test_db1", skipReason := none, xdistGroup := some "database",
       paramBindings := [] },
     { nodeid := "test_db.py::test_db2", sourceFile := "test_db.py", className := none,
       functionName := "test_db2", skipReason := none, xdistGroup := some "database",
       paramBindings := [] }] "database" _ _ (by decide) (by decide) rfl rfl
